import Mathlib

/-!
Verification development for the sitemap-diff repository
(`src/services/rss/manager.py`, class `RSSManager`).

The embedding models Python strings as `List Char` (`Str`), the file system
state of one domain directory as a `DomainState` record, the network as a
function `Str → Option Response` (where `none` covers both transport errors
and non-2xx responses surfaced by `raise_for_status`), and Python's
`xml.etree.ElementTree.fromstring` as an executable miniature XML parser
`parseXml` over the subset of XML that the manager handles: declarations,
comments (skipped), elements with double-quoted attributes, default
namespaces (`xmlns="..."`, resolved into brace-qualified tags exactly as
ElementTree renders them), character data, and the five predefined entities.  A bare
`&`, a stray `<`, an XML-invalid character (e.g. a C0 control other than
tab/LF/CR), or a literal `]]>` sequence in character data makes the parse
fail, exactly as in ElementTree, which is what the round-trip claims hinge
on; expat's CR-to-LF line-ending normalization is not modelled, so
CR-bearing character data is kept outside the `SafeUrl` set.  Python's
`str.strip()` is modelled with the full Unicode `str.isspace()` set.  The
gzip/charset normalization of `_response_to_text` is modelled as the
identity: response bodies in the model are already-decoded text, since no
claim concerns compression.
-/

set_option maxRecDepth 200000

/-! Definitions: string utilities and ordering, the executable XML model
(ElementTree subset), the embedded `RSSManager` operations, and the
concrete fixtures used by the claim theorems. -/

/-- Python strings are modelled as lists of characters. -/
abbrev Str := List Char

/-- The characters Python's `str.strip()` removes: every code point with
`str.isspace()` true — ASCII 0x09–0x0D and 0x1C–0x1F, space, NEL (0x85),
NBSP (0xA0), Ogham space (0x1680), the general punctuation spaces
0x2000–0x200A, the line and paragraph separators 0x2028/0x2029, the narrow
and medium spaces 0x202F/0x205F, and the ideographic space 0x3000. -/
def pyIsSpace (c : Char) : Bool :=
  (9 ≤ c.val && c.val ≤ 13) || (28 ≤ c.val && c.val ≤ 31) || c.val = 32 ||
    c.val = 0x85 || c.val = 0xA0 || c.val = 0x1680 ||
    (0x2000 ≤ c.val && c.val ≤ 0x200A) || c.val = 0x2028 || c.val = 0x2029 ||
    c.val = 0x202F || c.val = 0x205F || c.val = 0x3000

/-- Python `str.strip()`: remove leading and trailing Unicode whitespace
(the full `str.isspace()` set, not just ASCII whitespace). -/
def pstrip (s : Str) : Str :=
  ((s.dropWhile pyIsSpace).reverse.dropWhile pyIsSpace).reverse

/-- Trim by the XML `S` production (space, tab, CR, LF) — used only inside
the XML parser model, e.g. around closing-tag names. -/
def xstrip (s : Str) : Str :=
  ((s.dropWhile Char.isWhitespace).reverse.dropWhile Char.isWhitespace).reverse

/-- Boolean lexicographic comparison of strings by code point, as Python's
`<=` on `str` (used by `sorted`). -/
def strLeb : Str → Str → Bool
  | [], _ => true
  | _ :: _, [] => false
  | a :: as, b :: bs => if a < b then true else if a = b then strLeb as bs else false

/-- Propositional form of `strLeb`. -/
def strLe (a b : Str) : Prop := strLeb a b = true

instance : DecidableRel strLe := fun a b => instDecidableEqBool (strLeb a b) true

def strLeb_total : ∀ a b : Str, strLeb a b = true ∨ strLeb b a = true := by
  intro a
  induction a with
  | nil => intro b; left; rfl
  | cons c cs ih =>
    intro b
    cases b with
    | nil => right; rfl
    | cons d ds =>
      rcases lt_trichotomy c d with h | h | h
      · left; simp [strLeb, h]
      · subst h
        rcases ih ds with h2 | h2
        · left; simp [strLeb, h2]
        · right; simp [strLeb, h2]
      · right; simp [strLeb, h]

def strLeb_antisymm : ∀ a b : Str, strLeb a b = true → strLeb b a = true → a = b := by
  intro a
  induction a with
  | nil =>
    intro b _ h2
    cases b with
    | nil => rfl
    | cons d ds => simp [strLeb] at h2
  | cons c cs ih =>
    intro b h1 h2
    cases b with
    | nil => simp [strLeb] at h1
    | cons d ds =>
      rcases lt_trichotomy c d with h | h | h
      · simp [strLeb, h, not_lt_of_lt h, ne_of_gt h] at h2
      · subst h
        simp [strLeb] at h1 h2
        rw [ih ds h1 h2]
      · simp [strLeb, h, not_lt_of_lt h, ne_of_gt h] at h1

def strLeb_trans : ∀ a b c : Str, strLeb a b = true → strLeb b c = true →
    strLeb a c = true := by
  intro a
  induction a with
  | nil => intro b c _ _; rfl
  | cons x xs ih =>
    intro b c h1 h2
    cases b with
    | nil => simp [strLeb] at h1
    | cons y ys =>
      cases c with
      | nil => simp [strLeb] at h2
      | cons z zs =>
        simp only [strLeb] at h1 h2 ⊢
        rcases lt_trichotomy x y with hxy | hxy | hxy
        · rcases lt_trichotomy y z with hyz | hyz | hyz
          · simp [lt_trans hxy hyz]
          · subst hyz; simp [hxy]
          · simp [hyz, not_lt_of_lt hyz, ne_of_gt hyz] at h2
        · subst hxy
          rcases lt_trichotomy x z with hyz | hyz | hyz
          · simp [hyz]
          · subst hyz
            simp at h1 h2
            simp [ih _ _ h1 h2]
          · simp [hyz, not_lt_of_lt hyz, ne_of_gt hyz] at h2
        · simp [hxy, not_lt_of_lt hxy, ne_of_gt hxy] at h1

instance : IsTrans Str strLe := ⟨fun a b c => strLeb_trans a b c⟩

instance : IsAntisymm Str strLe := ⟨fun a b => strLeb_antisymm a b⟩

instance : IsTotal Str strLe := ⟨fun a b => strLeb_total a b⟩

/-- Python `sorted` on a set of strings: the canonical sorted list of the
elements of a finite set, computed by insertion sort (kernel-executable). -/
def sortedUrls (s : Finset Str) : List Str :=
  Quot.liftOn s.val (fun l => l.insertionSort strLe)
    (fun l l' (h : l.Perm l') =>
      List.eq_of_perm_of_sorted
        ((List.perm_insertionSort strLe l).trans
          (h.trans (List.perm_insertionSort strLe l').symm))
        (List.sorted_insertionSort strLe l) (List.sorted_insertionSort strLe l'))

/-- One lexical token of an XML document: an opening tag with its attributes
and a self-closing flag, a closing tag, a run of character data (entities
already decoded), or a skipped construct (declaration or comment). -/
inductive XTok where
  | topen (name : Str) (attrs : List (Str × Str)) (selfc : Bool)
  | tclose (name : Str)
  | ttext (s : Str)
  | tskip

/-- Decode one predefined XML entity name; anything else is a parse error,
as in ElementTree (a bare or malformed `&` is fatal). -/
def entChar (name : Str) : Option Char :=
  if name = ("amp".data) then some '&'
  else if name = ("lt".data) then some '<'
  else if name = ("gt".data) then some '>'
  else if name = ("quot".data) then some '"'
  else if name = ("apos".data) then some (Char.ofNat 39)
  else none

/-- Parse the attribute list of a tag (double-quoted values only); the fuel
argument only bounds recursion and is always supplied larger than the
input length. -/
def parseAttrs : Nat → Str → Option (List (Str × Str))
  | 0, _ => none
  | n + 1, s =>
    match s with
    | [] => some []
    | c :: cs =>
      if c.isWhitespace then parseAttrs n cs
      else
        match (c :: cs).span (fun d => !d.isWhitespace && d != '=') with
        | (nm, '=' :: '"' :: r2) =>
          if nm = [] then none
          else
            match r2.span (fun d => d != '"') with
            | (v, '"' :: r4) => (parseAttrs n r4).map (fun as => (nm, v) :: as)
            | _ => none
        | _ => none

/-- Classify the characters found between `<` and `>`: declaration/comment
(skipped), closing tag, or opening tag with attributes. -/
def parseTag (t : Str) : Option XTok :=
  match t with
  | [] => none
  | c :: cs =>
    if c = '?' then some XTok.tskip
    else if c = '!' then some XTok.tskip
    else if c = '/' then
      let nm := xstrip cs
      if nm = [] then none else some (XTok.tclose nm)
    else
      let selfc : Bool := t.getLast? == some '/'
      let body := if selfc then t.dropLast else t
      match body.span (fun d => !d.isWhitespace && d != '/') with
      | (nm, rest) =>
        if nm = [] then none
        else (parseAttrs (rest.length + 1) rest).map (fun as => XTok.topen nm as selfc)

/-- The XML 1.0 `Char` production: tab, LF, CR, and the scalar values
0x20–0xD7FF, 0xE000–0xFFFD, 0x10000–0x10FFFF.  Expat rejects any other
character (e.g. the C0 controls 0x01 or 0x0B) as not well-formed. -/
def xmlValidChar (c : Char) : Bool :=
  c.val = 9 || c.val = 10 || c.val = 13 ||
    (32 ≤ c.val && c.val ≤ 0xD7FF) || (0xE000 ≤ c.val && c.val ≤ 0xFFFD) ||
    (0x10000 ≤ c.val && c.val ≤ 0x10FFFF)

/-- Whether the (reversed) accumulated character data ends in `]]` — a
following literal `>` would form the forbidden `]]>` sequence. -/
def cdClose : Str → Bool
  | c1 :: c2 :: _ => c1 == ']' && c2 == ']'
  | _ => false

/-- Whether the string contains the CDATA-section terminator `]]>`, which
expat rejects inside character data. -/
def hasCdataEnd : Str → Bool
  | [] => false
  | c :: rest =>
    (match c, rest with
     | ']', ']' :: '>' :: _ => true
     | _, _ => false) || hasCdataEnd rest

/-- Lexer state: inside character data, inside a tag, or inside an entity
reference (each with the reversed accumulated characters). -/
inductive LexSt where
  | txt (acc : Str)
  | tag (acc : Str)
  | ent (acc eacc : Str)

/-- Run the lexer over the input.  Character data runs are maximal (entity
references are decoded into the surrounding run, as ElementTree reports a
single `.text` value); a `<` opens a tag, a `>` closes it; an unterminated
tag or entity, an undefined entity, an XML-invalid character in character
data, or a literal `]]>` sequence in character data (entity-escaped `>` is
exempt, as in expat) is a parse error. -/
def lexRun : LexSt → Str → Option (List XTok)
  | .txt acc, [] => if acc = [] then some [] else some [XTok.ttext acc.reverse]
  | .txt acc, c :: cs =>
    if c = '<' then
      if acc = [] then lexRun (.tag []) cs
      else Option.map (fun ts => XTok.ttext acc.reverse :: ts) (lexRun (.tag []) cs)
    else if c = '&' then lexRun (.ent acc []) cs
    else if xmlValidChar c = false then none
    else if c = '>' ∧ cdClose acc = true then none
    else lexRun (.txt (c :: acc)) cs
  | .tag _, [] => none
  | .tag acc, c :: cs =>
    if c = '>' then
      match parseTag acc.reverse with
      | none => none
      | some t => Option.map (fun ts => t :: ts) (lexRun (.txt []) cs)
    else lexRun (.tag (c :: acc)) cs
  | .ent _ _, [] => none
  | .ent acc eacc, c :: cs =>
    if c = ';' then
      match entChar eacc.reverse with
      | none => none
      | some ch => lexRun (.txt (ch :: acc)) cs
    else if c.isAlphanum || c = '#' then lexRun (.ent acc (c :: eacc)) cs
    else none

/-- An ElementTree node: an element with its (brace-)resolved tag, raw
attributes and children, or a run of character data. -/
inductive XNode where
  | elem (tag : Str) (attrs : List (Str × Str)) (kids : List XNode)
  | txt (s : Str)

/-- Opening brace character (written numerically). -/
def lbraceC : Char := Char.ofNat 123

/-- Closing brace character (written numerically). -/
def rbraceC : Char := Char.ofNat 125

/-- Resolve a raw tag name against a default namespace, producing the
brace-qualified tag string that ElementTree exposes in `.tag`. -/
def resTag : Option Str → Str → Str
  | none, nm => nm
  | some ns, nm => lbraceC :: (ns ++ rbraceC :: nm)

/-- Look up an attribute by name. -/
def lookupAttr (nm : Str) : List (Str × Str) → Option Str
  | [] => none
  | (k, v) :: r => if k = nm then some v else lookupAttr nm r

/-- Default namespace in force for an element: its own `xmlns` attribute if
present (empty value clears the namespace), else the parent's. -/
def nsOf (parent : Option Str) (attrs : List (Str × Str)) : Option Str :=
  match lookupAttr ("xmlns".data) attrs with
  | some v => if v = [] then none else some v
  | none => parent

/-- A pending open element on the builder stack: raw name, attributes, the
default namespace in force, and the reversed children collected so far. -/
structure BFrame where
  name : Str
  attrs : List (Str × Str)
  ns : Option Str
  kids : List XNode

/-- Attach a completed node to the innermost open element, or make it the
document root; a second root is a parse error. -/
def placeNode (stack : List BFrame) (root? : Option XNode) (n : XNode) :
    Option (List BFrame × Option XNode) :=
  match stack with
  | f :: fs => some ({ f with kids := n :: f.kids } :: fs, root?)
  | [] =>
    match root? with
    | none => some ([], some n)
    | some _ => none

/-- Fold the token stream into a document tree.  Mismatched or missing
closing tags, content outside the root other than whitespace, and a missing
root are parse errors, as in ElementTree. -/
def buildDoc : List BFrame → Option XNode → List XTok → Option XNode
  | stack, root?, [] =>
    match stack, root? with
    | [], some r => some r
    | _, _ => none
  | stack, root?, t :: ts =>
    match t with
    | .tskip => buildDoc stack root? ts
    | .ttext s =>
      match stack with
      | [] => if s.all Char.isWhitespace then buildDoc [] root? ts else none
      | f :: fs => buildDoc ({ f with kids := XNode.txt s :: f.kids } :: fs) root? ts
    | .topen nm attrs selfc =>
      let pns := match stack with
        | [] => none
        | f :: _ => f.ns
      let ns := nsOf pns attrs
      if selfc then
        match placeNode stack root? (XNode.elem (resTag ns nm) attrs []) with
        | none => none
        | some (st2, r2) => buildDoc st2 r2 ts
      else buildDoc (⟨nm, attrs, ns, []⟩ :: stack) root? ts
    | .tclose nm =>
      match stack with
      | [] => none
      | f :: fs =>
        if nm = f.name then
          match placeNode fs root? (XNode.elem (resTag f.ns f.name) f.attrs f.kids.reverse) with
          | none => none
          | some (st2, r2) => buildDoc st2 r2 ts
        else none

/-- The model of `xml.etree.ElementTree.fromstring`: lex, then build the
tree; `none` is a raised `ParseError`. -/
def parseXml (s : Str) : Option XNode :=
  match lexRun (.txt []) s with
  | none => none
  | some ts => buildDoc [] none ts

/-- The `.tag` of a node (text nodes have no tag). -/
def tagOf : XNode → Str
  | .elem t _ _ => t
  | .txt _ => []

/-- The children of a node. -/
def kidsOf : XNode → List XNode
  | .elem _ _ ks => ks
  | .txt _ => []

/-- Whether a node is an element. -/
def isElem : XNode → Bool
  | .elem _ _ _ => true
  | .txt _ => false

/-- ElementTree's `.text`: the character data immediately after the start
tag, i.e. the leading text child if any. -/
def nodeText : XNode → Option Str
  | .elem _ _ (XNode.txt s :: _) => some s
  | _ => none

/-- All strictly descendant elements in document order.  The fuel argument
only bounds the recursion depth and is always supplied larger than the
document height. -/
def descElemsF : Nat → XNode → List XNode
  | 0, _ => []
  | _ + 1, .txt _ => []
  | n + 1, .elem _ _ ks =>
    (ks.map (fun k => if isElem k then k :: descElemsF n k else [])).flatten

/-- ElementTree `findall(".//tag")`: all descendant elements with the given
resolved tag. -/
def findallDesc (fuel : Nat) (root : XNode) (tg : Str) : List XNode :=
  (descElemsF fuel root).filter (fun n => tagOf n == tg)

/-- ElementTree `findall(".//t1/t2")`: the `t2`-tagged element children of
every descendant element tagged `t1`. -/
def findallDescChild (fuel : Nat) (root : XNode) (t1 t2 : Str) : List XNode :=
  (((descElemsF fuel root).filter (fun n => tagOf n == t1)).map
    (fun n => (kidsOf n).filter (fun k => isElem k && (tagOf k == t2)))).flatten

/-- Python `tag.lower().endswith(suffix)` on a resolved tag. -/
def lowerEndsWith (t : Str) (suffix : Str) : Bool :=
  suffix.isSuffixOf (t.map Char.toLower)

/-- The sitemap protocol namespace used by the manager. -/
def sitemapNS : Str := ("http://www.sitemaps.org/schemas/sitemap/0.9".data)

/-- A tag qualified with the sitemap namespace. -/
def nsTag (nm : Str) : Str := resTag (some sitemapNS) nm

/-- Loop body shared by the `loc`-collecting loops: `if loc.text:
urls.add(loc.text.strip())` (Python truthiness skips both a missing and an
empty text). -/
def addLoc (urls : Finset Str) (n : XNode) : Finset Str :=
  match nodeText n with
  | some t => if t = [] then urls else insert (pstrip t) urls
  | none => urls

/-- The two `loc`-collecting loops of a `urlset` root: the namespaced
`findall(".//ns:loc")` pass, then the namespace-agnostic `findall(".//loc")`
pass when the first accumulated nothing. -/
def urlsetLoops (fuel : Nat) (root : XNode) : Finset Str :=
  let urls := (findallDesc fuel root (nsTag ("loc".data))).foldl addLoc ∅
  if urls = ∅ then (findallDesc fuel root ("loc".data)).foldl addLoc ∅ else urls

/-- `RSSManager._extract_all_urls`: parse the document; on a `urlset` root
collect every namespaced `loc` text (falling back to namespace-agnostic
`loc` when that yields nothing); a `sitemapindex` or any other root, or
unparseable XML, yields the empty set. -/
def _extract_all_urls (xml_text : Str) : Finset Str :=
  match parseXml xml_text with
  | none => ∅
  | some root =>
    let tg := tagOf root
    if lowerEndsWith tg ("urlset".data) then urlsetLoops (xml_text.length + 1) root
    else if lowerEndsWith tg ("sitemapindex".data) then ∅
    else ∅

/-- The f-string `f"<url><loc>{u}</loc></url>"` of `_build_urlset_xml`:
note the URL is interpolated without any XML escaping. -/
def urlItem (u : Str) : Str := ("<url><loc>".data) ++ u ++ ("</loc></url>".data)

/-- Python `sep.join(items)`. -/
def pyJoin (sep : Str) : List Str → Str
  | [] => []
  | [x] => x
  | x :: xs => x ++ sep ++ pyJoin sep xs

/-- `RSSManager._build_urlset_xml`: serialize a URL set as a `urlset`
document, one `url/loc` entry per URL in sorted order. -/
def _build_urlset_xml (urls : Finset Str) : Str :=
  let items := (sortedUrls urls).map urlItem
  ("<?xml version=\"1.0\" encoding=\"UTF-8\"?>\n<urlset xmlns=\"http://www.sitemaps.org/schemas/sitemap/0.9\">\n".data)
    ++ pyJoin ("\n".data) items ++ ("\n</urlset>".data)

/-- `RSSManager.compare_sitemaps`: extract both URL sets and return the
set-difference `current - old` (`list(current_urls - old_urls)`); the
surrounding `try` never fires because extraction is total, so the model is
a pure total function. -/
def compare_sitemaps (current_content old_content : Str) : Finset Str :=
  _extract_all_urls current_content \ _extract_all_urls old_content

/-- An HTTP response that passed `raise_for_status`, with its body already
decoded to text (gzip/charset handling of `_response_to_text` is not
modelled, no claim concerns it). -/
structure Response where
  url : Str
  text : Str

/-- The network: `requests.get` composed with `raise_for_status`; `none` is
a transport error or non-2xx status. -/
abbrev Net := Str → Option Response

/-- `RSSManager._response_to_text`, modelled as the identity on the
already-decoded body. -/
def _response_to_text (resp : Response) : Str := resp.text

/-- `RSSManager._collect_urls_from_sitemap`: parse the response body; a
`urlset` root yields its `loc` texts exactly as `_extract_all_urls`; a
`sitemapindex` root at depth `> 3` is truncated to the empty set, otherwise
every namespaced `sitemap/loc` child URL is fetched and recursed into at
`depth + 1`, a failed child fetch being skipped (`except: logging.warning`),
with the namespace-agnostic fallback loop when the first loop accumulated
nothing; unparseable XML or any other root yields the empty set. -/
def _collect_urls_from_sitemap (net : Net) (resp : Response) (depth : Nat) : Finset Str :=
  let txt := _response_to_text resp
  match parseXml txt with
  | none => ∅
  | some root =>
    let fuel := txt.length + 1
    let tg := tagOf root
    if lowerEndsWith tg ("urlset".data) then urlsetLoops fuel root
    else if lowerEndsWith tg ("sitemapindex".data) then
      if _h : depth > 3 then ∅
      else
        let step := fun (urls : Finset Str) (n : XNode) =>
          match nodeText n with
          | some t =>
            if t = [] then urls
            else
              match net (pstrip t) with
              | none => urls
              | some cr => urls ∪ _collect_urls_from_sitemap net cr (depth + 1)
          | none => urls
        let urls :=
          (findallDescChild fuel root (nsTag ("sitemap".data)) (nsTag ("loc".data))).foldl step ∅
        if urls = ∅ then
          (findallDescChild fuel root ("sitemap".data) ("loc".data)).foldl step ∅
        else urls
    else ∅
termination_by 4 - depth
decreasing_by omega

/-- Scheme characters accepted before `://` by `urllib.parse`. -/
def isSchemeChar (c : Char) : Bool := c.isAlphanum || c = '+' || c = '-' || c = '.'

/-- Strip a leading `scheme:` prefix if present. -/
def dropScheme (u : Str) : Str :=
  match u.span isSchemeChar with
  | (pre, ':' :: r) => if pre = [] then u else r
  | _ => u

/-- `urlparse(url).netloc`: the host part after `//`, up to the next
`/`, `?` or `#`; empty when the URL has no `//`. -/
def netloc (u : Str) : Str :=
  match dropScheme u with
  | '/' :: '/' :: r => r.takeWhile (fun c => c != '/' && c != '?' && c != '#')
  | _ => []

/-- The dated export file name `f"{domain}_sitemap_{today}.xml"` (paths are
modelled by their name within the domain directory). -/
def dpath (domain today : Str) : Str := domain ++ ("_sitemap_".data) ++ today ++ (".xml".data)

/-- On-disk state of one domain directory: `last_update.txt`,
`sitemap-current.xml`, `sitemap-latest.xml`, and the dated export files
keyed by date (`none` = the file does not exist). -/
structure DomainState where
  lastUpdate : Option Str
  current : Option Str
  latest : Option Str
  dated : Str → Option Str

/-- The tuple returned by `download_sitemap`/`add_feed`:
`(success, message, dated-file path, new URLs)`. -/
structure DownloadResult where
  success : Bool
  message : String
  path : Option Str
  newUrls : Finset Str

/-- Source message `"今天已经更新过此sitemap, 但没发送"` (already updated
today, not resent). -/
def msgAlreadyNoResend : String := "今天已经更新过此sitemap, 但没发送"

/-- Source message `"今天已经更新过此sitemap"` (already updated today). -/
def msgAlready : String := "今天已经更新过此sitemap"

/-- Source message prefix `"下载失败"` (download failed; the exception
detail appended in the source is elided). -/
def msgDownloadFailed : String := "下载失败"

/-- Source message `"已存在的feed更新成功"` (existing feed updated). -/
def msgFeedExistsUpdated : String := "已存在的feed更新成功"

/-- Source message `"该RSS订阅不存在"` (no such feed). -/
def msgFeedNotFound : String := "该RSS订阅不存在"

/-- `RSSManager.download_sitemap`: if `last_update.txt` records today's
date, return without touching the network — with the full
`(dated, current, latest)` generation present, re-derive the new URLs from
the persisted pair; otherwise report whether the dated file exists.  When
not gated, fetch the root sitemap (`none` = `RequestException` →
failure), recursively collect all URLs, serialize, rotate
`current → latest` when a current snapshot exists (diffing the new content
against it), and write `current`, the dated export and the date marker. -/
def download_sitemap (net : Net) (today : Str) (st : DomainState) (url : Str) :
    DownloadResult × DomainState :=
  let domain := netloc url
  let gatedToday : Bool :=
    match st.lastUpdate with
    | some last => pstrip last == today
    | none => false
  if gatedToday then
    match st.current, st.latest, st.dated today with
    | some cur, some lat, some _ =>
      ({ success := true, message := msgAlreadyNoResend, path := some (dpath domain today),
         newUrls := compare_sitemaps cur lat }, st)
    | _, _, _ =>
      ({ success := (st.dated today).isSome, message := msgAlready,
         path := some (dpath domain today), newUrls := ∅ }, st)
  else
    match net url with
    | none => ({ success := false, message := msgDownloadFailed, path := none, newUrls := ∅ }, st)
    | some resp =>
      let combined := _collect_urls_from_sitemap net resp 0
      let xml := _build_urlset_xml combined
      match st.current with
      | some old =>
        ({ success := true, message := "", path := some (dpath domain today),
           newUrls := compare_sitemaps xml old },
         { lastUpdate := some today, current := some xml, latest := some old,
           dated := fun d => if d = today then some xml else st.dated d })
      | none =>
        ({ success := true, message := "", path := some (dpath domain today), newUrls := ∅ },
         { lastUpdate := some today, current := some xml, latest := st.latest,
           dated := fun d => if d = today then some xml else st.dated d })

/-- Whole-manager state: the persisted `feeds.json` list and the per-domain
sitemap directories. -/
structure RSSState where
  feeds : List Str
  store : Str → DomainState

/-- `RSSManager.get_feeds` (the read-failure fallback of the source never
fires in the model, where the persisted list is always readable). -/
def get_feeds (sys : RSSState) : List Str := sys.feeds

/-- Replace one domain's directory contents. -/
def updStore (f : Str → DomainState) (d : Str) (st : DomainState) : Str → DomainState :=
  fun x => if x = d then st else f x

/-- `RSSManager.add_feed`: a new URL is first downloaded and appended to the
registry only on success (failure returns `(False, msg, None, [])`); an
already-registered URL is still downloaded but never re-appended. -/
def add_feed (net : Net) (today : Str) (sys : RSSState) (url : Str) :
    DownloadResult × RSSState :=
  let feeds := get_feeds sys
  if url ∉ feeds then
    let dl := download_sitemap net today (sys.store (netloc url)) url
    let sys2 : RSSState := { sys with store := updStore sys.store (netloc url) dl.2 }
    if dl.1.success then
      ({ dl.1 with message := "" }, { sys2 with feeds := feeds ++ [url] })
    else
      ({ success := false, message := dl.1.message, path := none, newUrls := ∅ }, sys2)
  else
    let dl := download_sitemap net today (sys.store (netloc url)) url
    let sys2 : RSSState := { sys with store := updStore sys.store (netloc url) dl.2 }
    if dl.1.success then
      ({ dl.1 with message := msgFeedExistsUpdated }, sys2)
    else
      ({ success := false, message := dl.1.message, path := none, newUrls := ∅ }, sys2)

/-- `RSSManager.remove_feed`: an absent URL fails with
`"该RSS订阅不存在"` and changes nothing; a present URL is removed
(`list.remove`, first occurrence) and the list persisted. -/
def remove_feed (sys : RSSState) (url : Str) : (Bool × String) × RSSState :=
  if url ∉ sys.feeds then
    ((false, msgFeedNotFound), sys)
  else
    ((true, ""), { sys with feeds := sys.feeds.erase url })

/-- A URL string that survives un-escaped interpolation into XML character
data and is returned unchanged by extraction: nonempty; free of the
metacharacters `&` and `<`; unchanged by Python's (Unicode-aware)
`str.strip()`; made of XML-valid characters only; not containing the
forbidden `]]>` sequence; and free of carriage returns (expat's
line-ending normalization, which rewrites CR to LF, is not modelled, so
CR-bearing strings are excluded from the safe set rather than given an
unfaithful round-trip). -/
def SafeUrl (u : Str) : Prop :=
  u ≠ [] ∧ '&' ∉ u ∧ '<' ∉ u ∧ pstrip u = u ∧
    (∀ c ∈ u, xmlValidChar c = true) ∧ hasCdataEnd u = false ∧ '\r' ∉ u

instance (u : Str) : Decidable (SafeUrl u) := by
  unfold SafeUrl
  infer_instance

/-- The token run produced by one `<url><loc>u</loc></url>` item. -/
def locItemToks (u : Str) : List XTok :=
  [XTok.topen ("url".data) [] false, XTok.topen ("loc".data) [] false, XTok.ttext u,
   XTok.tclose ("loc".data), XTok.tclose ("url".data)]

/-- The input remaining after one serialized item, given the later items. -/
def afterStr : List Str → Str
  | [] => ("\n</urlset>".data)
  | u :: us => '\n' :: (urlItem u ++ afterStr us)

/-- The token run for the separator-prefixed tail of the item list plus the
closing `</urlset>`. -/
def tailToks : List Str → List XTok
  | [] => [XTok.ttext ['\n'], XTok.tclose ("urlset".data)]
  | u :: us => XTok.ttext ['\n'] :: (locItemToks u ++ tailToks us)

/-- The fixed header of every serialized document: XML declaration plus the
namespaced `urlset` open tag, each followed by a newline. -/
def xmlHdr : Str :=
  ("<?xml version=\"1.0\" encoding=\"UTF-8\"?>\n<urlset xmlns=\"http://www.sitemaps.org/schemas/sitemap/0.9\">\n".data)

/-- Token run of the whole document body after the header tokens. -/
def docToks : List Str → List XTok
  | [] => [XTok.ttext ['\n', '\n'], XTok.tclose ("urlset".data)]
  | u :: us => XTok.ttext ['\n'] :: (locItemToks u ++ tailToks us)

/-- A parsed `loc` element carrying one URL as its text. -/
def locE (u : Str) : XNode := XNode.elem (nsTag ("loc".data)) [] [XNode.txt u]

/-- A parsed `url` element wrapping one `loc`. -/
def urlE (u : Str) : XNode := XNode.elem (nsTag ("url".data)) [] [locE u]

/-- Children of the root after the first item: separator text then items. -/
def seqT : List Str → List XNode
  | [] => [XNode.txt ['\n']]
  | u :: us => XNode.txt ['\n'] :: urlE u :: seqT us

/-- All children of the parsed root for a given item list. -/
def kidSeq : List Str → List XNode
  | [] => [XNode.txt ['\n', '\n']]
  | u :: us => XNode.txt ['\n'] :: urlE u :: seqT us

/-- The tree that parsing a serialized document produces. -/
def urlsetTree (l : List Str) : XNode :=
  XNode.elem (nsTag ("urlset".data)) [(("xmlns".data), sitemapNS)] (kidSeq l)

/-- Concrete `urlset` snapshot with URLs `a`, `b`, `c`. -/
def docCurrentABC : Str :=
  ("<urlset xmlns=\"http://www.sitemaps.org/schemas/sitemap/0.9\"><url><loc>a</loc></url><url><loc>b</loc></url><url><loc>c</loc></url></urlset>".data)

/-- Concrete `urlset` snapshot with URLs `a`, `b`. -/
def docPrevAB : Str :=
  ("<urlset xmlns=\"http://www.sitemaps.org/schemas/sitemap/0.9\"><url><loc>a</loc></url><url><loc>b</loc></url></urlset>".data)

/-- Concrete gated state for the C1 witness. -/
def c1State : DomainState :=
  { lastUpdate := some ("20260101".data), current := some docCurrentABC,
    latest := some docPrevAB,
    dated := fun d => if d = ("20260101".data) then some docCurrentABC else none }

/-- Concrete network for the C9 witness: one feed whose sitemap lists one
URL. -/
def c9Net : Net := fun u =>
  if u = ("https://e/s.xml".data) then
    some ⟨("https://e/s.xml".data),
      ("<urlset xmlns=\"http://www.sitemaps.org/schemas/sitemap/0.9\"><url><loc>https://e/p1</loc></url></urlset>".data)⟩
  else none

/-- Empty domain directory (nothing on disk yet). -/
def emptyDomain : DomainState := ⟨none, none, none, fun _ => none⟩

/-- Registry fixture holding one feed `a`. -/
def sysA : RSSState := ⟨[("a".data)], fun _ => emptyDomain⟩

/-- A registry operation: add a feed or remove one. -/
inductive FeedOp where
  | add (url : Str)
  | remove (url : Str)

/-- Apply one registry operation to the manager state. -/
def applyOp (net : Net) (today : Str) (sys : RSSState) : FeedOp → RSSState
  | .add u => (add_feed net today sys u).2
  | .remove u => (remove_feed sys u).2

/-- A namespaced `sitemapindex` document with one `sitemap/loc` child. -/
def idxDoc1 (v : Str) : Str :=
  ("<sitemapindex xmlns=\"http://www.sitemaps.org/schemas/sitemap/0.9\"><sitemap><loc>".data)
    ++ v ++ ("</loc></sitemap></sitemapindex>".data)

/-- A namespaced `sitemapindex` document with two `sitemap/loc` children. -/
def idxDoc2 (v w : Str) : Str :=
  ("<sitemapindex xmlns=\"http://www.sitemaps.org/schemas/sitemap/0.9\"><sitemap><loc>".data)
    ++ v ++ ("</loc></sitemap><sitemap><loc>".data) ++ w
    ++ ("</loc></sitemap></sitemapindex>".data)

/-- A parsed `sitemap` element wrapping one `loc`. -/
def smE (v : Str) : XNode := XNode.elem (nsTag ("sitemap".data)) [] [locE v]

/-- The tree of `idxDoc1`. -/
def idxTree1 (v : Str) : XNode :=
  XNode.elem (nsTag ("sitemapindex".data)) [(("xmlns".data), sitemapNS)] [smE v]

/-- The tree of `idxDoc2`. -/
def idxTree2 (v w : Str) : XNode :=
  XNode.elem (nsTag ("sitemapindex".data)) [(("xmlns".data), sitemapNS)] [smE v, smE w]

/-- Network for C2: a chain of five nested `sitemapindex` documents
(`u0 → u1 → u2 → u3 → u4`); the fourth-level index `u3` also references the
`urlset` `ua` carrying the set `A` (reached at depth 4, within the cap),
while the fifth-level index `u4` references `u5`, a `urlset` carrying `B`
(beyond the cap). -/
def c2net (A B : Finset Str) : Net := fun u =>
  if u = ("u0".data) then some ⟨("u0".data), idxDoc1 ("u1".data)⟩
  else if u = ("u1".data) then some ⟨("u1".data), idxDoc1 ("u2".data)⟩
  else if u = ("u2".data) then some ⟨("u2".data), idxDoc1 ("u3".data)⟩
  else if u = ("u3".data) then some ⟨("u3".data), idxDoc2 ("u4".data) ("ua".data)⟩
  else if u = ("u4".data) then some ⟨("u4".data), idxDoc1 ("u5".data)⟩
  else if u = ("u5".data) then some ⟨("u5".data), _build_urlset_xml B⟩
  else if u = ("ua".data) then some ⟨("ua".data), _build_urlset_xml A⟩
  else none

/-- Network for C6: a root `sitemapindex` with two children — fetching `wx`
fails (transport error), `wy` is a `urlset` carrying `B`. -/
def c6net (B : Finset Str) : Net := fun u =>
  if u = ("w0".data) then some ⟨("w0".data), idxDoc2 ("wx".data) ("wy".data)⟩
  else if u = ("wy".data) then some ⟨("wy".data), _build_urlset_xml B⟩
  else none

/-! Theorems: correctness lemmas for parsing the serialized documents,
reductions of `download_sitemap` and `_collect_urls_from_sitemap`, and the
claim theorems C1-C10 with their witnesses. -/

theorem sortedUrls_toFinset (s : Finset Str) : (sortedUrls s).toFinset = s := by
  rcases s with ⟨m, hm⟩
  induction m using Quot.ind with
  | _ l =>
    have hp : (sortedUrls ⟨Quot.mk _ l, hm⟩) = l.insertionSort strLe := rfl
    rw [hp]
    ext a
    simp [List.mem_insertionSort, Finset.mem_mk, Multiset.mem_coe]

theorem mem_sortedUrls (s : Finset Str) (a : Str) : a ∈ sortedUrls s ↔ a ∈ s := by
  conv_rhs => rw [← sortedUrls_toFinset s]
  simp

theorem hasCdataEnd_occurrence : ∀ (x y : Str),
    hasCdataEnd (x ++ ']' :: ']' :: '>' :: y) = true := by
  intro x y
  induction x with
  | nil => rfl
  | cons a x ih =>
    simp only [List.cons_append, hasCdataEnd, List.append_eq, ih, Bool.or_true]

theorem lexRun_txt_append :
    ∀ (u acc cs : Str), '&' ∉ u → '<' ∉ u → (∀ c ∈ u, xmlValidChar c = true) →
      hasCdataEnd (acc.reverse ++ u) = false →
      lexRun (.txt acc) (u ++ cs) = lexRun (.txt (u.reverse ++ acc)) cs := by
  intro u
  induction u with
  | nil => intro acc cs _ _ _ _; simp
  | cons c cu ih =>
    intro acc cs hamp hlt hvalid hcd
    have hc1 : ¬ (c = '<') := fun h => hlt (h ▸ List.mem_cons_self c cu)
    have hc2 : ¬ (c = '&') := fun h => hamp (h ▸ List.mem_cons_self c cu)
    have hcv : xmlValidChar c = true := hvalid c (List.mem_cons_self c cu)
    have hguard : ¬ (c = '>' ∧ cdClose acc = true) := by
      rintro ⟨rfl, hclose⟩
      rcases acc with _ | ⟨a1, _ | ⟨a2, t⟩⟩
      · simp [cdClose] at hclose
      · simp [cdClose] at hclose
      · simp only [cdClose, Bool.and_eq_true, beq_iff_eq] at hclose
        obtain ⟨rfl, rfl⟩ := hclose
        have heq : ((']' :: ']' :: t : Str).reverse ++ ('>' :: cu)) =
            t.reverse ++ (']' :: ']' :: '>' :: cu) := by
          simp
        rw [heq, hasCdataEnd_occurrence] at hcd
        simp at hcd
    have h1 : lexRun (.txt acc) ((c :: cu) ++ cs) = lexRun (.txt (c :: acc)) (cu ++ cs) := by
      simp [lexRun, hc1, hc2, hcv, hguard]
    have hcd2 : hasCdataEnd ((c :: acc).reverse ++ cu) = false := by
      have heq : ((c :: acc).reverse ++ cu : Str) = acc.reverse ++ (c :: cu) := by simp
      rw [heq]
      exact hcd
    rw [h1, ih (c :: acc) cs (fun h => hamp (List.mem_cons_of_mem c h))
      (fun h => hlt (List.mem_cons_of_mem c h))
      (fun d hd => hvalid d (List.mem_cons_of_mem c hd)) hcd2]
    simp

theorem lexRun_txt_lt (acc cs : Str) (h : acc ≠ []) :
    lexRun (.txt acc) ('<' :: cs) =
      Option.map (fun ts => XTok.ttext acc.reverse :: ts) (lexRun (.tag []) cs) := by
  simp [lexRun, h]

theorem lexRun_txt_lt_nil (cs : Str) :
    lexRun (.txt []) ('<' :: cs) = lexRun (.tag []) cs := by
  simp [lexRun]

theorem lexRun_urlItem (u rest : Str) (hu : SafeUrl u) :
    lexRun (.txt []) (urlItem u ++ rest) =
      Option.map (fun ts => locItemToks u ++ ts) (lexRun (.txt []) rest) := by
  obtain ⟨hne, hamp, hlt, _, hvalid, hcdata, _⟩ := hu
  have hsplit : urlItem u ++ rest =
      ("<url><loc>".data) ++ (u ++ (("</loc></url>".data) ++ rest)) := by
    simp [urlItem]
  rw [hsplit]
  have h1 : lexRun (.txt []) (("<url><loc>".data) ++ (u ++ (("</loc></url>".data) ++ rest))) =
      Option.map (fun ts => XTok.topen ("url".data) [] false :: ts)
        (Option.map (fun ts => XTok.topen ("loc".data) [] false :: ts)
          (lexRun (.txt []) (u ++ (("</loc></url>".data) ++ rest)))) := rfl
  rw [h1, lexRun_txt_append u [] _ hamp hlt hvalid (by simpa using hcdata)]
  have h2 : ("</loc></url>".data) ++ rest = '<' :: (("/loc></url>".data) ++ rest) := rfl
  rw [List.append_nil, h2, lexRun_txt_lt _ _ (by simpa using hne)]
  have h3 : lexRun (.tag []) (("/loc></url>".data) ++ rest) =
      Option.map (fun ts => XTok.tclose ("loc".data) :: ts)
        (Option.map (fun ts => XTok.tclose ("url".data) :: ts)
          (lexRun (.txt []) rest)) := rfl
  rw [h3]
  simp [Option.map_map, locItemToks, Function.comp_def]

theorem lexRun_txt_acc_lt (acc : Str) (h : acc ≠ []) (w : Str) :
    lexRun (.txt acc) ('<' :: w) =
      Option.map (fun ts => XTok.ttext acc.reverse :: ts) (lexRun (.txt []) ('<' :: w)) := by
  rw [lexRun_txt_lt acc w h, lexRun_txt_lt_nil w]

theorem lexRun_afterStr : ∀ us : List Str, (∀ u ∈ us, SafeUrl u) →
    lexRun (.txt []) (afterStr us) = some (tailToks us) := by
  intro us
  induction us with
  | nil => intro _; rfl
  | cons u us ih =>
    intro hsafe
    have hstep : lexRun (.txt []) (afterStr (u :: us)) =
        lexRun (.txt ['\n']) (urlItem u ++ afterStr us) := rfl
    rw [hstep]
    have hlt : urlItem u ++ afterStr us =
        '<' :: (("url><loc>".data) ++ u ++ (("</loc></url>".data) ++ afterStr us)) := by
      simp [urlItem]
    rw [hlt, lexRun_txt_acc_lt ['\n'] (by simp) _, ← hlt,
      lexRun_urlItem u (afterStr us) (hsafe u (List.mem_cons_self u us)),
      ih (fun v hv => hsafe v (List.mem_cons_of_mem u hv))]
    simp [tailToks]

theorem pyJoin_afterStr : ∀ (us : List Str) (u : Str),
    pyJoin ("\n".data) ((u :: us).map urlItem) ++ ("\n</urlset>".data) =
      urlItem u ++ afterStr us := by
  intro us
  induction us with
  | nil => intro u; rfl
  | cons v vs ih =>
    intro u
    have h1 : pyJoin ("\n".data) ((u :: v :: vs).map urlItem) =
        urlItem u ++ ("\n".data) ++ pyJoin ("\n".data) ((v :: vs).map urlItem) := rfl
    rw [h1]
    have h2 : afterStr (v :: vs) = '\n' :: (urlItem v ++ afterStr vs) := rfl
    rw [h2, ← ih v]
    simp [afterStr, List.append_assoc]

theorem lexRun_hdr (X : Str) :
    lexRun (.txt []) (xmlHdr ++ X) =
      Option.map (fun ts => XTok.tskip :: ts)
        (Option.map (fun ts => XTok.ttext ['\n'] :: ts)
          (Option.map
            (fun ts => XTok.topen ("urlset".data) [(("xmlns".data), sitemapNS)] false :: ts)
            (lexRun (.txt ['\n']) X))) := rfl

theorem lexRun_build (S : Finset Str) (hS : ∀ u ∈ S, SafeUrl u) :
    lexRun (.txt []) (_build_urlset_xml S) =
      some (XTok.tskip :: XTok.ttext ['\n'] ::
        XTok.topen ("urlset".data) [(("xmlns".data), sitemapNS)] false ::
        docToks (sortedUrls S)) := by
  have hb : _build_urlset_xml S =
      xmlHdr ++ (pyJoin ("\n".data) ((sortedUrls S).map urlItem) ++ ("\n</urlset>".data)) := by
    simp [_build_urlset_xml, xmlHdr, List.append_assoc]
  rw [hb, lexRun_hdr]
  have hsafe : ∀ v ∈ sortedUrls S, SafeUrl v := fun v hv => hS v ((mem_sortedUrls S v).mp hv)
  cases hl : sortedUrls S with
  | nil =>
    have h0 : pyJoin ("\n".data) (([] : List Str).map urlItem) ++ ("\n</urlset>".data) =
        ("\n</urlset>".data) := rfl
    rw [h0]
    rfl
  | cons u us =>
    rw [pyJoin_afterStr us u]
    have hu : SafeUrl u := hsafe u (by rw [hl]; exact List.mem_cons_self u us)
    have hus : ∀ v ∈ us, SafeUrl v := fun v hv =>
      hsafe v (by rw [hl]; exact List.mem_cons_of_mem u hv)
    have hlt : urlItem u ++ afterStr us =
        '<' :: (("url><loc>".data) ++ u ++ (("</loc></url>".data) ++ afterStr us)) := by
      simp [urlItem]
    rw [hlt, lexRun_txt_acc_lt ['\n'] (by simp) _, ← hlt,
      lexRun_urlItem u (afterStr us) hu, lexRun_afterStr us hus]
    simp [docToks]

theorem buildDoc_tail : ∀ (us : List Str) (K : List XNode),
    buildDoc [⟨("urlset".data), [(("xmlns".data), sitemapNS)], some sitemapNS, K⟩] none
        (tailToks us) =
      some (XNode.elem (nsTag ("urlset".data)) [(("xmlns".data), sitemapNS)]
        (K.reverse ++ seqT us)) := by
  intro us
  induction us with
  | nil =>
    intro K
    have hred : buildDoc
        [⟨("urlset".data), [(("xmlns".data), sitemapNS)], some sitemapNS, K⟩] none
          (tailToks []) =
        some (XNode.elem (nsTag ("urlset".data)) [(("xmlns".data), sitemapNS)]
          (XNode.txt ['\n'] :: K).reverse) := rfl
    rw [hred]
    simp [seqT]
  | cons u us ih =>
    intro K
    have hred : buildDoc
        [⟨("urlset".data), [(("xmlns".data), sitemapNS)], some sitemapNS, K⟩] none
          (tailToks (u :: us)) =
        buildDoc
          [⟨("urlset".data), [(("xmlns".data), sitemapNS)], some sitemapNS,
            urlE u :: XNode.txt ['\n'] :: K⟩] none (tailToks us) := rfl
    rw [hred, ih]
    simp [seqT, List.append_assoc]

theorem buildDoc_top (l : List Str) :
    buildDoc [] none (XTok.tskip :: XTok.ttext ['\n'] ::
      XTok.topen ("urlset".data) [(("xmlns".data), sitemapNS)] false :: docToks l) =
      some (urlsetTree l) := by
  cases l with
  | nil => rfl
  | cons u us =>
    have hred : buildDoc [] none (XTok.tskip :: XTok.ttext ['\n'] ::
        XTok.topen ("urlset".data) [(("xmlns".data), sitemapNS)] false :: docToks (u :: us)) =
        buildDoc [⟨("urlset".data), [(("xmlns".data), sitemapNS)], some sitemapNS, []⟩] none
          (tailToks (u :: us)) := rfl
    rw [hred, buildDoc_tail]
    simp [urlsetTree, kidSeq, seqT]

theorem parse_build (S : Finset Str) (hS : ∀ u ∈ S, SafeUrl u) :
    parseXml (_build_urlset_xml S) = some (urlsetTree (sortedUrls S)) := by
  unfold parseXml
  rw [lexRun_build S hS]
  exact buildDoc_top (sortedUrls S)

theorem isElem_urlE (u : Str) : isElem (urlE u) = true := rfl

theorem isElem_locE (u : Str) : isElem (locE u) = true := rfl

theorem isElem_txt (s : Str) : isElem (XNode.txt s) = false := rfl

theorem tagOf_urlE (u : Str) : tagOf (urlE u) = nsTag ("url".data) := rfl

theorem tagOf_locE (u : Str) : tagOf (locE u) = nsTag ("loc".data) := rfl

theorem descElemsF_locE (n : Nat) (u : Str) : descElemsF n (locE u) = [] := by
  cases n with
  | zero => rfl
  | succ m => simp [descElemsF, locE, isElem]

theorem descElemsF_urlE (n : Nat) (u : Str) : descElemsF (n + 1) (urlE u) = [locE u] := by
  have h1 : descElemsF (n + 1) (urlE u) =
      ([locE u].map (fun k => if isElem k then k :: descElemsF n k else [])).flatten := rfl
  rw [h1]
  simp [isElem_locE, descElemsF_locE]

theorem descElemsF_seqT : ∀ (us : List Str) (n : Nat),
    ((seqT us).map (fun k => if isElem k then k :: descElemsF (n + 2) k else [])).flatten =
      (us.map (fun u => [urlE u, locE u])).flatten := by
  intro us
  induction us with
  | nil => intro n; simp [seqT, isElem_txt]
  | cons u us ih =>
    intro n
    simp only [seqT, List.map_cons, List.flatten_cons, ih n]
    simp [isElem_urlE, isElem_txt, descElemsF_urlE]

theorem descElemsF_urlsetTree (n : Nat) (l : List Str) :
    descElemsF (n + 3) (urlsetTree l) = (l.map (fun u => [urlE u, locE u])).flatten := by
  cases l with
  | nil => simp [urlsetTree, kidSeq, descElemsF, isElem_txt]
  | cons u us =>
    have h1 : descElemsF (n + 3) (urlsetTree (u :: us)) =
        ((XNode.txt ['\n'] :: urlE u :: seqT us).map
          (fun k => if isElem k then k :: descElemsF (n + 2) k else [])).flatten := rfl
    rw [h1]
    simp only [List.map_cons, List.flatten_cons, descElemsF_seqT us n]
    simp [isElem_urlE, isElem_txt, descElemsF_urlE]

theorem findallDesc_urlsetTree_ns (n : Nat) (l : List Str) :
    findallDesc (n + 3) (urlsetTree l) (nsTag ("loc".data)) = l.map locE := by
  unfold findallDesc
  rw [descElemsF_urlsetTree]
  induction l with
  | nil => rfl
  | cons u us ih =>
    simp only [List.map_cons, List.flatten_cons, List.filter_append, ih]
    have h1 : (tagOf (urlE u) == nsTag ("loc".data)) = false := rfl
    have h2 : (tagOf (locE u) == nsTag ("loc".data)) = true := rfl
    simp [List.filter, h1, h2]

theorem findallDesc_urlsetTree_plain (n : Nat) (l : List Str) :
    findallDesc (n + 3) (urlsetTree l) ("loc".data) = [] := by
  unfold findallDesc
  rw [descElemsF_urlsetTree]
  induction l with
  | nil => rfl
  | cons u us ih =>
    simp only [List.map_cons, List.flatten_cons, List.filter_append, ih]
    have h1 : (tagOf (urlE u) == ("loc".data)) = false := rfl
    have h2 : (tagOf (locE u) == ("loc".data)) = false := rfl
    simp [List.filter, h1, h2]

theorem foldl_addLoc_locE : ∀ (l : List Str) (init : Finset Str), (∀ u ∈ l, SafeUrl u) →
    (l.map locE).foldl addLoc init = init ∪ l.toFinset := by
  intro l
  induction l with
  | nil => intro init _; simp
  | cons u us ih =>
    intro init hsafe
    obtain ⟨hne, _, _, htrim, _, _, _⟩ := hsafe u (List.mem_cons_self u us)
    have h1 : addLoc init (locE u) = insert u init := by
      simp [addLoc, locE, nodeText, hne, htrim]
    simp only [List.map_cons, List.foldl_cons, h1,
      ih (insert u init) (fun v hv => hsafe v (List.mem_cons_of_mem u hv))]
    ext a
    simp

theorem urlsetLoops_urlsetTree (n : Nat) (l : List Str) (hsafe : ∀ u ∈ l, SafeUrl u) :
    urlsetLoops (n + 3) (urlsetTree l) = l.toFinset := by
  unfold urlsetLoops
  rw [findallDesc_urlsetTree_ns, findallDesc_urlsetTree_plain,
    foldl_addLoc_locE l ∅ hsafe]
  simp only [Finset.empty_union, List.foldl_nil]
  by_cases h : l.toFinset = ∅
  · simp [h]
  · simp [h]

theorem tag_urlsetTree (l : List Str) : tagOf (urlsetTree l) = nsTag ("urlset".data) := rfl

theorem lower_urlset_true : lowerEndsWith (nsTag ("urlset".data)) ("urlset".data) = true := by
  decide

theorem build_length_ge (S : Finset Str) : 3 ≤ (_build_urlset_xml S).length + 1 := by
  have hb : _build_urlset_xml S =
      xmlHdr ++ (pyJoin ("\n".data) ((sortedUrls S).map urlItem) ++ ("\n</urlset>".data)) := by
    simp [_build_urlset_xml, xmlHdr, List.append_assoc]
  have hx : 3 ≤ xmlHdr.length := by decide
  rw [hb]
  simp only [List.length_append]
  omega

theorem extract_of_parse_urlset (t : Str) (root : XNode) (hp : parseXml t = some root)
    (hu : lowerEndsWith (tagOf root) ("urlset".data) = true) :
    _extract_all_urls t = urlsetLoops (t.length + 1) root := by
  unfold _extract_all_urls
  rw [hp]
  simp only [hu, if_true]

/-- Round-trip at the heart of C10: serializing any set of safe URLs and
re-extracting yields the set back. -/
theorem extract_build (S : Finset Str) (hS : ∀ u ∈ S, SafeUrl u) :
    _extract_all_urls (_build_urlset_xml S) = S := by
  have hsafe : ∀ u ∈ sortedUrls S, SafeUrl u := fun v hv => hS v ((mem_sortedUrls S v).mp hv)
  obtain ⟨m, hm⟩ : ∃ m, (_build_urlset_xml S).length + 1 = m + 3 :=
    ⟨(_build_urlset_xml S).length - 2, by have := build_length_ge S; omega⟩
  rw [extract_of_parse_urlset _ _ (parse_build S hS)
    (by rw [tag_urlsetTree]; exact lower_urlset_true), hm,
    urlsetLoops_urlsetTree m (sortedUrls S) hsafe, sortedUrls_toFinset]

theorem collect_of_parse_urlset (net : Net) (resp : Response) (d : Nat) (root : XNode)
    (hp : parseXml resp.text = some root)
    (hu : lowerEndsWith (tagOf root) ("urlset".data) = true) :
    _collect_urls_from_sitemap net resp d = urlsetLoops (resp.text.length + 1) root := by
  unfold _collect_urls_from_sitemap
  simp only [_response_to_text, hp, hu, if_true]

theorem collect_build (net : Net) (u : Str) (d : Nat) (A : Finset Str)
    (hA : ∀ v ∈ A, SafeUrl v) :
    _collect_urls_from_sitemap net ⟨u, _build_urlset_xml A⟩ d = A := by
  have hsafe : ∀ v ∈ sortedUrls A, SafeUrl v := fun v hv => hA v ((mem_sortedUrls A v).mp hv)
  obtain ⟨m, hm⟩ : ∃ m, (_build_urlset_xml A).length + 1 = m + 3 :=
    ⟨(_build_urlset_xml A).length - 2, by have := build_length_ge A; omega⟩
  have hresp : (⟨u, _build_urlset_xml A⟩ : Response).text = _build_urlset_xml A := rfl
  rw [collect_of_parse_urlset net _ d (urlsetTree (sortedUrls A))
    (by rw [hresp]; exact parse_build A hA)
    (by rw [tag_urlsetTree]; exact lower_urlset_true)]
  rw [hresp, hm, urlsetLoops_urlsetTree m (sortedUrls A) hsafe, sortedUrls_toFinset]

/-- C10, counterexample: the round-trip claim fails on the concrete URL
string `"&a"` — `_build_urlset_xml` interpolates it without escaping, the
bare `&` makes the document unparseable, and `_extract_all_urls` returns the
empty set instead of the original singleton. -/
theorem c10_roundtrip_counterexample :
    ¬ (_extract_all_urls (_build_urlset_xml {("&a".data)}) = {("&a".data)}) := by
  decide

/-- C10, amended: for every finite set of `SafeUrl` strings — nonempty,
free of the XML metacharacters `&` and `<`, unchanged by Python's
Unicode-aware `str.strip()`, made of XML-valid characters only (expat
rejects e.g. the controls 0x01 and 0x0B), not containing the forbidden
`]]>` sequence, and free of carriage returns (which expat would rewrite to
line feeds) — extracting the URL set from the `urlset` document built from
the set yields the set itself. -/
theorem c10_roundtrip_safe (S : Finset Str) (hS : ∀ u ∈ S, SafeUrl u) :
    _extract_all_urls (_build_urlset_xml S) = S :=
  extract_build S hS

/-- Witness for C10's amended theorem at a concrete two-element set. -/
theorem c10_roundtrip_safe_witness :
    (∀ u ∈ ({("https://e/a".data), ("https://e/b".data)} : Finset Str), SafeUrl u) ∧
      _extract_all_urls (_build_urlset_xml {("https://e/a".data), ("https://e/b".data)}) =
        {("https://e/a".data), ("https://e/b".data)} :=
  ⟨by decide, c10_roundtrip_safe _ (by decide)⟩

/-- C3: for every pair of snapshot documents, `compare_sitemaps` returns
exactly the set-difference of the extracted URL sets — a URL is in the
result iff it is in the current snapshot and not in the previous one — and
on the concrete pair current `(a,b,c)` / previous `(a,b)` it yields exactly
the singleton `c`.  The model is a pure total function, matching "no side
effects and never fails". -/
theorem c3_compare_sitemaps :
    (∀ (c o u : Str), u ∈ compare_sitemaps c o ↔
        (u ∈ _extract_all_urls c ∧ u ∉ _extract_all_urls o)) ∧
      compare_sitemaps docCurrentABC docPrevAB = {("c".data)} := by
  constructor
  · intro c o u
    simp [compare_sitemaps, Finset.mem_sdiff]
  · decide

/-- C5: unparseable XML, or a root element that is neither `urlset` nor
`sitemapindex`, makes both the snapshot parser `_extract_all_urls` and the
fetch-side `_collect_urls_from_sitemap` return the empty URL set; both are
total functions, so no exception or error outcome occurs. -/
theorem c5_malformed (s : Str) (net : Net) (r : Response) (d : Nat) :
    (parseXml s = none → _extract_all_urls s = ∅)
    ∧ (∀ root, parseXml s = some root →
        lowerEndsWith (tagOf root) ("urlset".data) = false →
        lowerEndsWith (tagOf root) ("sitemapindex".data) = false →
        _extract_all_urls s = ∅)
    ∧ (parseXml r.text = none → _collect_urls_from_sitemap net r d = ∅)
    ∧ (∀ root, parseXml r.text = some root →
        lowerEndsWith (tagOf root) ("urlset".data) = false →
        lowerEndsWith (tagOf root) ("sitemapindex".data) = false →
        _collect_urls_from_sitemap net r d = ∅) := by
  refine ⟨?_, ?_, ?_, ?_⟩
  · intro h
    unfold _extract_all_urls
    rw [h]
  · intro root h h1 h2
    unfold _extract_all_urls
    rw [h]
    simp [h1, h2]
  · intro h
    unfold _collect_urls_from_sitemap
    simp only [_response_to_text, h]
  · intro root h h1 h2
    unfold _collect_urls_from_sitemap
    simp only [_response_to_text, h, h1, h2]
    simp

/-- Witness for C5 at a concrete unparseable document (`"<a>"`, an
unclosed tag) and a concrete unknown-root document (`"<foo/>"`). -/
theorem c5_malformed_witness :
    _extract_all_urls ("<a>".data) = ∅ ∧
      _collect_urls_from_sitemap (fun _ => none) ⟨[], ("<foo/>".data)⟩ 0 = ∅ :=
  ⟨(c5_malformed ("<a>".data) (fun _ => none) ⟨[], ("<foo/>".data)⟩ 0).1 rfl,
    (c5_malformed ("<a>".data) (fun _ => none) ⟨[], ("<foo/>".data)⟩ 0).2.2.2
      (XNode.elem ("foo".data) [] []) rfl (by decide) (by decide)⟩

theorem download_gated (net : Net) (today last : Str) (st : DomainState) (url : Str)
    (hl : st.lastUpdate = some last) (ht : pstrip last = today) :
    download_sitemap net today st url =
      (match st.current, st.latest, st.dated today with
       | some cur, some lat, some _ =>
         ({ success := true, message := msgAlreadyNoResend,
            path := some (dpath (netloc url) today),
            newUrls := compare_sitemaps cur lat }, st)
       | _, _, _ =>
         ({ success := (st.dated today).isSome, message := msgAlready,
            path := some (dpath (netloc url) today), newUrls := ∅ }, st)) := by
  unfold download_sitemap
  rw [hl]
  simp [ht]

/-- C1: when `last_update.txt` records today's date, `download_sitemap`
performs no network fetch — its result is independent of the network and
the state is returned unchanged.  With the complete generation
(`current`, `latest`, today's dated export) present it returns success, the
"already updated today, not resent" message (`msgAlreadyNoResend`), today's
export path and `compare_sitemaps current latest`, the diff of the persisted
current snapshot against the persisted previous one; otherwise it returns
success equal to the dated export's existence, the "already updated today"
message (`msgAlready`) and no new URLs (the dated path is still reported). -/
theorem c1_daily_gate (net net' : Net) (today last : Str) (st : DomainState) (url : Str)
    (hl : st.lastUpdate = some last) (ht : pstrip last = today) :
    download_sitemap net today st url = download_sitemap net' today st url
    ∧ (∀ cur lat d0, st.current = some cur → st.latest = some lat →
        st.dated today = some d0 →
        download_sitemap net today st url =
          ({ success := true, message := msgAlreadyNoResend,
             path := some (dpath (netloc url) today),
             newUrls := compare_sitemaps cur lat }, st))
    ∧ ((st.current = none ∨ st.latest = none ∨ st.dated today = none) →
        download_sitemap net today st url =
          ({ success := (st.dated today).isSome, message := msgAlready,
             path := some (dpath (netloc url) today), newUrls := ∅ }, st)) := by
  refine ⟨?_, ?_, ?_⟩
  · rw [download_gated net today last st url hl ht, download_gated net' today last st url hl ht]
  · intro cur lat d0 h1 h2 h3
    rw [download_gated net today last st url hl ht, h1, h2, h3]
  · intro h
    rw [download_gated net today last st url hl ht]
    rcases h with h | h | h
    · rw [h]
    · cases hc : st.current with
      | none => rfl
      | some cur => rw [h]
    · cases hc : st.current with
      | none => rfl
      | some cur =>
        cases hlat : st.latest with
        | none => rfl
        | some lat => rw [h]

/-- Witness for C1 at a concrete fully-populated gated state: the result
ignores the network and re-derives the diff from the persisted pair. -/
theorem c1_daily_gate_witness :
    download_sitemap (fun _ => none) ("20260101".data) c1State ("https://e/x".data) =
        download_sitemap (fun _ => some ⟨[], []⟩) ("20260101".data) c1State
          ("https://e/x".data)
    ∧ download_sitemap (fun _ => none) ("20260101".data) c1State ("https://e/x".data) =
        ({ success := true, message := msgAlreadyNoResend,
           path := some (dpath (netloc ("https://e/x".data)) ("20260101".data)),
           newUrls := compare_sitemaps docCurrentABC docPrevAB }, c1State) :=
  ⟨(c1_daily_gate (fun _ => none) (fun _ => some ⟨[], []⟩) ("20260101".data)
      ("20260101".data) c1State ("https://e/x".data) rfl (by decide)).1,
    (c1_daily_gate (fun _ => none) (fun _ => some ⟨[], []⟩) ("20260101".data)
      ("20260101".data) c1State ("https://e/x".data) rfl (by decide)).2.1
      docCurrentABC docPrevAB docCurrentABC rfl rfl (by decide)⟩

/-- C9: on the first-ever successful fetch of a domain (no current snapshot
and no date marker) `download_sitemap` succeeds with an empty `new_urls`
even though the fetched sitemap may contain URLs, writes the serialized
snapshot as `current` and as today's dated export, records the date marker,
and does not touch the previous (`latest`) generation — in particular no
previous generation appears when none existed. -/
theorem c9_first_fetch (net : Net) (today url : Str) (st : DomainState) (resp : Response)
    (hlu : st.lastUpdate = none) (hc : st.current = none) (hnet : net url = some resp) :
    (download_sitemap net today st url).1.success = true
    ∧ (download_sitemap net today st url).1.newUrls = ∅
    ∧ (download_sitemap net today st url).1.path = some (dpath (netloc url) today)
    ∧ (download_sitemap net today st url).2.latest = st.latest
    ∧ (download_sitemap net today st url).2.current =
        some (_build_urlset_xml (_collect_urls_from_sitemap net resp 0))
    ∧ (download_sitemap net today st url).2.dated today =
        some (_build_urlset_xml (_collect_urls_from_sitemap net resp 0))
    ∧ (download_sitemap net today st url).2.lastUpdate = some today
    ∧ (st.latest = none → (download_sitemap net today st url).2.latest = none) := by
  have hred : download_sitemap net today st url =
      ({ success := true, message := "", path := some (dpath (netloc url) today),
         newUrls := ∅ },
       { lastUpdate := some today,
         current := some (_build_urlset_xml (_collect_urls_from_sitemap net resp 0)),
         latest := st.latest,
         dated := fun d =>
           if d = today then some (_build_urlset_xml (_collect_urls_from_sitemap net resp 0))
           else st.dated d }) := by
    unfold download_sitemap
    rw [hlu, hnet, hc]
    rfl
  rw [hred]
  refine ⟨rfl, rfl, rfl, rfl, rfl, by simp, rfl, fun h => h⟩

/-- Witness for C9 at a concrete empty domain state and a one-URL sitemap. -/
theorem c9_first_fetch_witness :
    (download_sitemap c9Net ("20260101".data) ⟨none, none, none, fun _ => none⟩
        ("https://e/s.xml".data)).1.success = true
    ∧ (download_sitemap c9Net ("20260101".data) ⟨none, none, none, fun _ => none⟩
        ("https://e/s.xml".data)).1.newUrls = ∅
    ∧ (download_sitemap c9Net ("20260101".data) ⟨none, none, none, fun _ => none⟩
        ("https://e/s.xml".data)).2.latest = none := by
  have h := c9_first_fetch c9Net ("20260101".data) ("https://e/s.xml".data)
    ⟨none, none, none, fun _ => none⟩
    ⟨("https://e/s.xml".data),
      ("<urlset xmlns=\"http://www.sitemaps.org/schemas/sitemap/0.9\"><url><loc>https://e/p1</loc></url></urlset>".data)⟩
    rfl rfl rfl
  exact ⟨h.1, h.2.1, h.2.2.2.2.2.2.2 rfl⟩

theorem add_feed_new_fail (net : Net) (today : Str) (sys : RSSState) (url : Str)
    (hmem : url ∉ sys.feeds)
    (hfail : (download_sitemap net today (sys.store (netloc url)) url).1.success = false) :
    add_feed net today sys url =
      ({ success := false,
         message := (download_sitemap net today (sys.store (netloc url)) url).1.message,
         path := none, newUrls := ∅ },
       { sys with store := (updStore sys.store (netloc url)
           (download_sitemap net today (sys.store (netloc url)) url).2) }) := by
  simp only [add_feed, get_feeds, hmem, not_false_eq_true, if_true, hfail,
    Bool.false_eq_true, if_false]

theorem add_feed_new_succ (net : Net) (today : Str) (sys : RSSState) (url : Str)
    (hmem : url ∉ sys.feeds)
    (hsucc : (download_sitemap net today (sys.store (netloc url)) url).1.success = true) :
    add_feed net today sys url =
      ({ (download_sitemap net today (sys.store (netloc url)) url).1 with message := "" },
       { feeds := sys.feeds ++ [url],
         store := (updStore sys.store (netloc url)
           (download_sitemap net today (sys.store (netloc url)) url).2) }) := by
  simp only [add_feed, get_feeds, hmem, not_false_eq_true, if_true, hsucc, if_true]

theorem add_feed_existing (net : Net) (today : Str) (sys : RSSState) (url : Str)
    (hmem : url ∈ sys.feeds) :
    (add_feed net today sys url).2 =
      { sys with store := (updStore sys.store (netloc url)
          (download_sitemap net today (sys.store (netloc url)) url).2) }
    ∧ (add_feed net today sys url).1.success =
        (download_sitemap net today (sys.store (netloc url)) url).1.success := by
  simp only [add_feed, get_feeds, hmem, not_true_eq_false, if_false]
  by_cases hs : (download_sitemap net today (sys.store (netloc url)) url).1.success
  · simp only [hs, if_true]
    simp [hs]
  · simp only [Bool.not_eq_true] at hs
    simp only [hs, Bool.false_eq_true, if_false]
    simp [hs]

/-- C4: `add_feed` on a URL not yet in the registry appends it only after a
successful `download_sitemap`: on a failed first fetch the registry returned
by `get_feeds` is unchanged and the URL absent from it, on a successful
fetch the URL is appended; on a URL already present the download is still
performed (the result's success mirrors it and the domain store receives its
state) but no second entry is appended. -/
theorem c4_add_feed_gating (net : Net) (today : Str) (sys : RSSState) (url : Str) :
    (url ∉ sys.feeds →
        (download_sitemap net today (sys.store (netloc url)) url).1.success = false →
        (add_feed net today sys url).1.success = false
        ∧ get_feeds (add_feed net today sys url).2 = get_feeds sys
        ∧ url ∉ get_feeds (add_feed net today sys url).2)
    ∧ (url ∉ sys.feeds →
        (download_sitemap net today (sys.store (netloc url)) url).1.success = true →
        (add_feed net today sys url).2.feeds = sys.feeds ++ [url])
    ∧ (url ∈ sys.feeds →
        (add_feed net today sys url).2.feeds = sys.feeds
        ∧ (add_feed net today sys url).1.success =
            (download_sitemap net today (sys.store (netloc url)) url).1.success
        ∧ (add_feed net today sys url).2.store =
            updStore sys.store (netloc url)
              (download_sitemap net today (sys.store (netloc url)) url).2) := by
  refine ⟨?_, ?_, ?_⟩
  · intro hmem hfail
    rw [add_feed_new_fail net today sys url hmem hfail]
    exact ⟨rfl, rfl, hmem⟩
  · intro hmem hsucc
    rw [add_feed_new_succ net today sys url hmem hsucc]
  · intro hmem
    obtain ⟨h2, hsucc⟩ := add_feed_existing net today sys url hmem
    rw [h2]
    exact ⟨rfl, hsucc, rfl⟩

/-- Witness for C4: with an always-failing network, adding the absent feed
`b` to a registry holding only `a` fails and leaves the registry without
`b`; adding the present feed `a` keeps the registry a single `a`. -/
theorem c4_add_feed_gating_witness :
    ((add_feed (fun _ => none) ("20260101".data) sysA ("b".data)).1.success = false
      ∧ ("b".data) ∉ get_feeds (add_feed (fun _ => none) ("20260101".data) sysA ("b".data)).2)
    ∧ (add_feed (fun _ => none) ("20260101".data) sysA ("a".data)).2.feeds = sysA.feeds := by
  have h1 := (c4_add_feed_gating (fun _ => none) ("20260101".data) sysA ("b".data)).1
    (by decide) (by decide)
  have h2 := ((c4_add_feed_gating (fun _ => none) ("20260101".data) sysA ("a".data)).2.2
    (by decide)).1
  exact ⟨⟨h1.1, h1.2.2⟩, h2⟩

/-- C7: `remove_feed` on an absent URL reports the not-found failure and
leaves the state unchanged; on a present URL it removes the entry
(`list.remove`), persists the remaining list, touches no domain state and
returns success — under the no-duplicates invariant the URL is gone. -/
theorem c7_remove_feed (sys : RSSState) (url : Str) :
    (url ∉ sys.feeds → remove_feed sys url = ((false, msgFeedNotFound), sys))
    ∧ (url ∈ sys.feeds →
        (remove_feed sys url).1 = (true, "")
        ∧ (remove_feed sys url).2.feeds = sys.feeds.erase url
        ∧ (remove_feed sys url).2.store = sys.store
        ∧ (sys.feeds.Nodup → url ∉ (remove_feed sys url).2.feeds)) := by
  constructor
  · intro h
    simp only [remove_feed, h, not_false_eq_true, if_true]
  · intro h
    have hred : remove_feed sys url = ((true, ""), { sys with feeds := sys.feeds.erase url }) := by
      simp only [remove_feed, h, not_true_eq_false, if_false]
    rw [hred]
    refine ⟨rfl, rfl, rfl, fun hn => ?_⟩
    simp [hn.mem_erase_iff]

/-- Witness for C7: removing `b` from the registry `[a]` fails and keeps
the registry; removing `a` succeeds and empties it. -/
theorem c7_remove_feed_witness :
    remove_feed sysA ("b".data) = ((false, msgFeedNotFound), sysA)
    ∧ (remove_feed sysA ("a".data)).1 = (true, "")
    ∧ ("a".data) ∉ (remove_feed sysA ("a".data)).2.feeds := by
  have h1 := (c7_remove_feed sysA ("b".data)).1 (by decide)
  have h2 := (c7_remove_feed sysA ("a".data)).2 (by decide)
  exact ⟨h1, h2.1, h2.2.2.2 (by decide)⟩

theorem add_feed_nodup (net : Net) (today : Str) (sys : RSSState) (url : Str)
    (h : sys.feeds.Nodup) : (add_feed net today sys url).2.feeds.Nodup := by
  by_cases hm : url ∈ sys.feeds
  · rw [(add_feed_existing net today sys url hm).1]
    exact h
  · by_cases hs : (download_sitemap net today (sys.store (netloc url)) url).1.success
    · rw [add_feed_new_succ net today sys url hm hs]
      simp [List.nodup_append, h, hm]
    · simp only [Bool.not_eq_true] at hs
      rw [add_feed_new_fail net today sys url hm hs]
      exact h

theorem remove_feed_nodup (sys : RSSState) (url : Str) (h : sys.feeds.Nodup) :
    (remove_feed sys url).2.feeds.Nodup := by
  by_cases hm : url ∈ sys.feeds
  · have hred : (remove_feed sys url).2 = { sys with feeds := sys.feeds.erase url } := by
      simp only [remove_feed, hm, not_true_eq_false, if_false]
    rw [hred]
    exact h.erase url
  · have hred : (remove_feed sys url).2 = sys := by
      simp only [remove_feed, hm, not_false_eq_true, if_true]
    rw [hred]
    exact h

/-- C8: the registry never holds two entries with the same URL — from any
state whose feed list has no duplicates, every sequence of `add_feed` and
`remove_feed` operations preserves the no-duplicates invariant, because
`add_feed` appends only when the URL is absent. -/
theorem c8_registry_nodup (net : Net) (today : Str) (ops : List FeedOp) (sys : RSSState)
    (h : sys.feeds.Nodup) :
    ((ops.foldl (applyOp net today) sys).feeds).Nodup := by
  induction ops generalizing sys with
  | nil => exact h
  | cons op ops ih =>
    rw [List.foldl_cons]
    apply ih
    cases op with
    | add u => exact add_feed_nodup net today sys u h
    | remove u => exact remove_feed_nodup sys u h

/-- Witness for C8 at a concrete operation sequence on the registry `[a]`. -/
theorem c8_registry_nodup_witness :
    (([FeedOp.add ("b".data), FeedOp.remove ("a".data),
        FeedOp.add ("b".data)].foldl (applyOp (fun _ => none) ("20260101".data))
          sysA).feeds).Nodup :=
  c8_registry_nodup (fun _ => none) ("20260101".data) _ sysA (by decide)

theorem parse_idxDoc1 (v : Str) (hv : SafeUrl v) :
    parseXml (idxDoc1 v) = some (idxTree1 v) := by
  obtain ⟨hne, hamp, hlt, _, hvalid, hcdata, _⟩ := hv
  unfold parseXml
  have hsplit : idxDoc1 v =
      ("<sitemapindex xmlns=\"http://www.sitemaps.org/schemas/sitemap/0.9\"><sitemap><loc>".data)
        ++ (v ++ ("</loc></sitemap></sitemapindex>".data)) := by
    simp [idxDoc1]
  rw [hsplit]
  have h1 : lexRun (.txt [])
      (("<sitemapindex xmlns=\"http://www.sitemaps.org/schemas/sitemap/0.9\"><sitemap><loc>".data)
        ++ (v ++ ("</loc></sitemap></sitemapindex>".data))) =
      Option.map (fun ts => XTok.topen ("sitemapindex".data) [(("xmlns".data), sitemapNS)] false :: ts)
        (Option.map (fun ts => XTok.topen ("sitemap".data) [] false :: ts)
          (Option.map (fun ts => XTok.topen ("loc".data) [] false :: ts)
            (lexRun (.txt []) (v ++ ("</loc></sitemap></sitemapindex>".data))))) := rfl
  rw [h1, lexRun_txt_append v [] _ hamp hlt hvalid (by simpa using hcdata), List.append_nil]
  have h2 : ("</loc></sitemap></sitemapindex>".data) =
      '<' :: ("/loc></sitemap></sitemapindex>".data) := rfl
  rw [h2, lexRun_txt_lt _ _ (by simpa using hne)]
  have h3 : lexRun (.tag []) ("/loc></sitemap></sitemapindex>".data) =
      some [XTok.tclose ("loc".data), XTok.tclose ("sitemap".data),
        XTok.tclose ("sitemapindex".data)] := rfl
  rw [h3]
  simp only [Option.map_some, List.reverse_reverse]
  rfl

theorem parse_idxDoc2 (v w : Str) (hv : SafeUrl v) (hw : SafeUrl w) :
    parseXml (idxDoc2 v w) = some (idxTree2 v w) := by
  obtain ⟨hne, hamp, hlt, _, hvalid, hcdata, _⟩ := hv
  obtain ⟨hne2, hamp2, hlt2, _, hvalid2, hcdata2, _⟩ := hw
  unfold parseXml
  have hsplit : idxDoc2 v w =
      ("<sitemapindex xmlns=\"http://www.sitemaps.org/schemas/sitemap/0.9\"><sitemap><loc>".data)
        ++ (v ++ (("</loc></sitemap><sitemap><loc>".data)
          ++ (w ++ ("</loc></sitemap></sitemapindex>".data)))) := by
    simp [idxDoc2]
  rw [hsplit]
  have h1 : lexRun (.txt [])
      (("<sitemapindex xmlns=\"http://www.sitemaps.org/schemas/sitemap/0.9\"><sitemap><loc>".data)
        ++ (v ++ (("</loc></sitemap><sitemap><loc>".data)
          ++ (w ++ ("</loc></sitemap></sitemapindex>".data))))) =
      Option.map (fun ts => XTok.topen ("sitemapindex".data) [(("xmlns".data), sitemapNS)] false :: ts)
        (Option.map (fun ts => XTok.topen ("sitemap".data) [] false :: ts)
          (Option.map (fun ts => XTok.topen ("loc".data) [] false :: ts)
            (lexRun (.txt []) (v ++ (("</loc></sitemap><sitemap><loc>".data)
              ++ (w ++ ("</loc></sitemap></sitemapindex>".data))))))) := rfl
  rw [h1, lexRun_txt_append v [] _ hamp hlt hvalid (by simpa using hcdata), List.append_nil]
  have h2 : ("</loc></sitemap><sitemap><loc>".data)
      ++ (w ++ ("</loc></sitemap></sitemapindex>".data)) =
      '<' :: (("/loc></sitemap><sitemap><loc>".data)
        ++ (w ++ ("</loc></sitemap></sitemapindex>".data))) := rfl
  rw [h2, lexRun_txt_lt _ _ (by simpa using hne)]
  have h3 : lexRun (.tag []) (("/loc></sitemap><sitemap><loc>".data)
      ++ (w ++ ("</loc></sitemap></sitemapindex>".data))) =
      Option.map (fun ts => XTok.tclose ("loc".data) :: ts)
        (Option.map (fun ts => XTok.tclose ("sitemap".data) :: ts)
          (Option.map (fun ts => XTok.topen ("sitemap".data) [] false :: ts)
            (Option.map (fun ts => XTok.topen ("loc".data) [] false :: ts)
              (lexRun (.txt []) (w ++ ("</loc></sitemap></sitemapindex>".data)))))) := rfl
  rw [h3, lexRun_txt_append w [] _ hamp2 hlt2 hvalid2 (by simpa using hcdata2),
    List.append_nil]
  have h4 : ("</loc></sitemap></sitemapindex>".data) =
      '<' :: ("/loc></sitemap></sitemapindex>".data) := rfl
  rw [h4, lexRun_txt_lt _ _ (by simpa using hne2)]
  have h5 : lexRun (.tag []) ("/loc></sitemap></sitemapindex>".data) =
      some [XTok.tclose ("loc".data), XTok.tclose ("sitemap".data),
        XTok.tclose ("sitemapindex".data)] := rfl
  rw [h5]
  simp only [Option.map_some, List.reverse_reverse]
  rfl

theorem nodeText_locE (v : Str) : nodeText (locE v) = some v := rfl

theorem descElemsF_smE (n : Nat) (v : Str) : descElemsF (n + 1) (smE v) = [locE v] := by
  have h1 : descElemsF (n + 1) (smE v) =
      ([locE v].map (fun k => if isElem k then k :: descElemsF n k else [])).flatten := rfl
  rw [h1]
  simp [isElem_locE, descElemsF_locE]

theorem descElemsF_idxTree1 (n : Nat) (v : Str) :
    descElemsF (n + 3) (idxTree1 v) = [smE v, locE v] := by
  have h1 : descElemsF (n + 3) (idxTree1 v) =
      ([smE v].map (fun k => if isElem k then k :: descElemsF (n + 2) k else [])).flatten := rfl
  rw [h1]
  have h2 : isElem (smE v) = true := rfl
  simp [h2, descElemsF_smE]

theorem descElemsF_idxTree2 (n : Nat) (v w : Str) :
    descElemsF (n + 3) (idxTree2 v w) = [smE v, locE v, smE w, locE w] := by
  have h1 : descElemsF (n + 3) (idxTree2 v w) =
      ([smE v, smE w].map (fun k => if isElem k then k :: descElemsF (n + 2) k else [])).flatten :=
    rfl
  rw [h1]
  have h2 : ∀ u : Str, isElem (smE u) = true := fun _ => rfl
  simp [h2, descElemsF_smE]

theorem fdc_idxTree1 (n : Nat) (v : Str) :
    findallDescChild (n + 3) (idxTree1 v) (nsTag ("sitemap".data)) (nsTag ("loc".data)) =
      [locE v] := rfl

theorem fdc_idxTree1_plain (n : Nat) (v : Str) :
    findallDescChild (n + 3) (idxTree1 v) ("sitemap".data) ("loc".data) = [] := rfl

theorem fdc_idxTree2 (n : Nat) (v w : Str) :
    findallDescChild (n + 3) (idxTree2 v w) (nsTag ("sitemap".data)) (nsTag ("loc".data)) =
      [locE v, locE w] := rfl

theorem fdc_idxTree2_plain (n : Nat) (v w : Str) :
    findallDescChild (n + 3) (idxTree2 v w) ("sitemap".data) ("loc".data) = [] := rfl

theorem tag_idxTree1 (v : Str) : tagOf (idxTree1 v) = nsTag ("sitemapindex".data) := rfl

theorem tag_idxTree2 (v w : Str) : tagOf (idxTree2 v w) = nsTag ("sitemapindex".data) := rfl

theorem lower_idx_not_urlset :
    lowerEndsWith (nsTag ("sitemapindex".data)) ("urlset".data) = false := by decide

theorem lower_idx_idx :
    lowerEndsWith (nsTag ("sitemapindex".data)) ("sitemapindex".data) = true := by decide

theorem ite_self_empty (X : Finset Str) : (if X = ∅ then (∅ : Finset Str) else X) = X := by
  by_cases h : X = ∅ <;> simp [h]

theorem collect_index_red (net : Net) (resp : Response) (d : Nat) (root : XNode)
    (hp : parseXml resp.text = some root)
    (hu : lowerEndsWith (tagOf root) ("urlset".data) = false)
    (hi : lowerEndsWith (tagOf root) ("sitemapindex".data) = true)
    (hd : ¬ d > 3) :
    _collect_urls_from_sitemap net resp d =
      (let step := fun (urls : Finset Str) (n : XNode) =>
        match nodeText n with
        | some t =>
          if t = [] then urls
          else
            match net (pstrip t) with
            | none => urls
            | some cr => urls ∪ _collect_urls_from_sitemap net cr (d + 1)
        | none => urls
      let urls := (findallDescChild (resp.text.length + 1) root (nsTag ("sitemap".data))
        (nsTag ("loc".data))).foldl step ∅
      if urls = ∅ then
        (findallDescChild (resp.text.length + 1) root ("sitemap".data) ("loc".data)).foldl step ∅
      else urls) := by
  conv_lhs => rw [_collect_urls_from_sitemap]
  simp only [_response_to_text, hp, hu, Bool.false_eq_true, if_false, hi, if_true, hd,
    dite_false]

theorem collect_index_deep (net : Net) (resp : Response) (d : Nat) (root : XNode)
    (hp : parseXml resp.text = some root)
    (hu : lowerEndsWith (tagOf root) ("urlset".data) = false)
    (hi : lowerEndsWith (tagOf root) ("sitemapindex".data) = true)
    (hd : d > 3) :
    _collect_urls_from_sitemap net resp d = ∅ := by
  conv_lhs => rw [_collect_urls_from_sitemap]
  simp only [_response_to_text, hp, hu, Bool.false_eq_true, if_false, hi, if_true, hd,
    dite_true]

theorem idxDoc1_len2 (v : Str) : 2 ≤ (idxDoc1 v).length := by
  have h : idxDoc1 v = '<' :: 's' ::
      ((("itemapindex xmlns=\"http://www.sitemaps.org/schemas/sitemap/0.9\"><sitemap><loc>".data)
        ++ v) ++ ("</loc></sitemap></sitemapindex>".data)) := rfl
  rw [h]
  simp

theorem idxDoc2_len2 (v w : Str) : 2 ≤ (idxDoc2 v w).length := by
  have h : idxDoc2 v w = '<' :: 's' ::
      (((("itemapindex xmlns=\"http://www.sitemaps.org/schemas/sitemap/0.9\"><sitemap><loc>".data)
        ++ v) ++ ("</loc></sitemap><sitemap><loc>".data) ++ w)
        ++ ("</loc></sitemap></sitemapindex>".data)) := rfl
  rw [h]
  simp

theorem collect_idx1 (net : Net) (u v : Str) (d : Nat) (hv : SafeUrl v) (hd : ¬ d > 3)
    (r2 : Response) (hnet : net v = some r2) :
    _collect_urls_from_sitemap net ⟨u, idxDoc1 v⟩ d =
      _collect_urls_from_sitemap net r2 (d + 1) := by
  obtain ⟨m, hm⟩ : ∃ m, ((⟨u, idxDoc1 v⟩ : Response).text).length + 1 = m + 3 :=
    ⟨(idxDoc1 v).length - 2, by
      show (idxDoc1 v).length + 1 = (idxDoc1 v).length - 2 + 3
      have h := idxDoc1_len2 v
      omega⟩
  rw [collect_index_red net _ d (idxTree1 v) (parse_idxDoc1 v hv)
    (by rw [tag_idxTree1]; exact lower_idx_not_urlset)
    (by rw [tag_idxTree1]; exact lower_idx_idx) hd]
  rw [hm, fdc_idxTree1 m v, fdc_idxTree1_plain m v]
  simp only [List.foldl_cons, List.foldl_nil, nodeText_locE, hv.1, if_false, hv.2.2.2.1,
    hnet, Finset.empty_union]
  exact ite_self_empty _

theorem collect_idx2_some_some (net : Net) (u v w : Str) (d : Nat)
    (hv : SafeUrl v) (hw : SafeUrl w) (hd : ¬ d > 3)
    (r1 r2 : Response) (h1 : net v = some r1) (h2 : net w = some r2) :
    _collect_urls_from_sitemap net ⟨u, idxDoc2 v w⟩ d =
      _collect_urls_from_sitemap net r1 (d + 1) ∪
        _collect_urls_from_sitemap net r2 (d + 1) := by
  obtain ⟨m, hm⟩ : ∃ m, ((⟨u, idxDoc2 v w⟩ : Response).text).length + 1 = m + 3 :=
    ⟨(idxDoc2 v w).length - 2, by
      show (idxDoc2 v w).length + 1 = (idxDoc2 v w).length - 2 + 3
      have h := idxDoc2_len2 v w
      omega⟩
  rw [collect_index_red net _ d (idxTree2 v w) (parse_idxDoc2 v w hv hw)
    (by rw [tag_idxTree2]; exact lower_idx_not_urlset)
    (by rw [tag_idxTree2]; exact lower_idx_idx) hd]
  rw [hm, fdc_idxTree2 m v w, fdc_idxTree2_plain m v w]
  simp only [List.foldl_cons, List.foldl_nil, nodeText_locE, hv.1, hw.1, if_false,
    hv.2.2.2.1, hw.2.2.2.1, h1, h2, Finset.empty_union]
  exact ite_self_empty _

theorem collect_idx2_none_some (net : Net) (u v w : Str) (d : Nat)
    (hv : SafeUrl v) (hw : SafeUrl w) (hd : ¬ d > 3)
    (h1 : net v = none) (r2 : Response) (h2 : net w = some r2) :
    _collect_urls_from_sitemap net ⟨u, idxDoc2 v w⟩ d =
      _collect_urls_from_sitemap net r2 (d + 1) := by
  obtain ⟨m, hm⟩ : ∃ m, ((⟨u, idxDoc2 v w⟩ : Response).text).length + 1 = m + 3 :=
    ⟨(idxDoc2 v w).length - 2, by
      show (idxDoc2 v w).length + 1 = (idxDoc2 v w).length - 2 + 3
      have h := idxDoc2_len2 v w
      omega⟩
  rw [collect_index_red net _ d (idxTree2 v w) (parse_idxDoc2 v w hv hw)
    (by rw [tag_idxTree2]; exact lower_idx_not_urlset)
    (by rw [tag_idxTree2]; exact lower_idx_idx) hd]
  rw [hm, fdc_idxTree2 m v w, fdc_idxTree2_plain m v w]
  simp only [List.foldl_cons, List.foldl_nil, nodeText_locE, hv.1, hw.1, if_false,
    hv.2.2.2.1, hw.2.2.2.1, h1, h2, Finset.empty_union]
  exact ite_self_empty _

/-- C2: recursive sitemap-index expansion is capped at 4 levels including
the root.  On the five-level index chain of `c2net`, collection returns
exactly the set `A` reachable within the cap (via a `urlset` at depth 4):
the fifth-level `sitemapindex` (processed at depth 4) is truncated without
an error, so the URLs `B` behind it are excluded from the result, while the
overall fetch still succeeds (`download_sitemap` reports success). -/
theorem c2_depth_cap (A B : Finset Str) (hA : ∀ u ∈ A, SafeUrl u)
    (hAB : A ∩ B = ∅) :
    _collect_urls_from_sitemap (c2net A B) ⟨("u0".data), idxDoc1 ("u1".data)⟩ 0 = A
    ∧ (∀ b ∈ B, b ∉ _collect_urls_from_sitemap (c2net A B)
        ⟨("u0".data), idxDoc1 ("u1".data)⟩ 0)
    ∧ (download_sitemap (c2net A B) ("20260101".data) emptyDomain
        ("u0".data)).1.success = true := by
  have h4 : _collect_urls_from_sitemap (c2net A B) ⟨("u4".data), idxDoc1 ("u5".data)⟩ 4 = ∅ :=
    collect_index_deep (c2net A B) _ 4 (idxTree1 ("u5".data))
      (parse_idxDoc1 ("u5".data) (by decide))
      (by rw [tag_idxTree1]; exact lower_idx_not_urlset)
      (by rw [tag_idxTree1]; exact lower_idx_idx) (by omega)
  have ha : _collect_urls_from_sitemap (c2net A B)
      ⟨("ua".data), _build_urlset_xml A⟩ 4 = A :=
    collect_build (c2net A B) ("ua".data) 4 A hA
  have h3 : _collect_urls_from_sitemap (c2net A B)
      ⟨("u3".data), idxDoc2 ("u4".data) ("ua".data)⟩ 3 = A := by
    rw [collect_idx2_some_some (c2net A B) ("u3".data) ("u4".data) ("ua".data) 3
      (by decide) (by decide) (by omega) _ _ rfl rfl, h4, ha, Finset.empty_union]
  have h2 : _collect_urls_from_sitemap (c2net A B)
      ⟨("u2".data), idxDoc1 ("u3".data)⟩ 2 = A := by
    rw [collect_idx1 (c2net A B) ("u2".data) ("u3".data) 2 (by decide) (by omega) _ rfl, h3]
  have h1 : _collect_urls_from_sitemap (c2net A B)
      ⟨("u1".data), idxDoc1 ("u2".data)⟩ 1 = A := by
    rw [collect_idx1 (c2net A B) ("u1".data) ("u2".data) 1 (by decide) (by omega) _ rfl, h2]
  have h0 : _collect_urls_from_sitemap (c2net A B)
      ⟨("u0".data), idxDoc1 ("u1".data)⟩ 0 = A := by
    rw [collect_idx1 (c2net A B) ("u0".data) ("u1".data) 0 (by decide) (by omega) _ rfl, h1]
  refine ⟨h0, fun b hb hbc => ?_, ?_⟩
  · rw [h0] at hbc
    have hmem : b ∈ A ∩ B := Finset.mem_inter.mpr ⟨hbc, hb⟩
    rw [hAB] at hmem
    exact absurd hmem (Finset.not_mem_empty b)
  · have hred : (download_sitemap (c2net A B) ("20260101".data) emptyDomain
        ("u0".data)).1.success = true := rfl
    exact hred

/-- Witness for C2 at concrete disjoint singletons `A` and `B`. -/
theorem c2_depth_cap_witness :
    _collect_urls_from_sitemap (c2net {("https://in/1".data)} {("https://out/1".data)})
        ⟨("u0".data), idxDoc1 ("u1".data)⟩ 0 = {("https://in/1".data)}
    ∧ ("https://out/1".data) ∉ _collect_urls_from_sitemap
        (c2net {("https://in/1".data)} {("https://out/1".data)})
        ⟨("u0".data), idxDoc1 ("u1".data)⟩ 0 := by
  have h := c2_depth_cap {("https://in/1".data)} {("https://out/1".data)}
    (by decide) (by decide)
  exact ⟨h.1, h.2.1 ("https://out/1".data) (by decide)⟩

/-- C6: during recursive expansion a failed child fetch is skipped without
aborting the parent — on `c6net`, where child `wx` fails and child `wy`
succeeds with URL set `B`, collection returns exactly the union of the
successful children (`B`) and the overall `download_sitemap` succeeds;
only the top-level transport failure of the root fetch is a hard error
(an always-failing network makes `download_sitemap` return the download
failure outcome with no state change). -/
theorem c6_child_failure (B : Finset Str) (hB : ∀ u ∈ B, SafeUrl u) :
    _collect_urls_from_sitemap (c6net B)
        ⟨("w0".data), idxDoc2 ("wx".data) ("wy".data)⟩ 0 = B
    ∧ (download_sitemap (c6net B) ("20260101".data) emptyDomain
        ("w0".data)).1.success = true
    ∧ download_sitemap (fun _ => none) ("20260101".data) emptyDomain ("w0".data) =
        ({ success := false, message := msgDownloadFailed, path := none, newUrls := ∅ },
          emptyDomain) := by
  refine ⟨?_, ?_, ?_⟩
  · rw [collect_idx2_none_some (c6net B) ("w0".data) ("wx".data) ("wy".data) 0
      (by decide) (by decide) (by omega) rfl _ rfl,
      collect_build (c6net B) ("wy".data) 1 B hB]
  · rfl
  · rfl

/-- Witness for C6 at a concrete singleton `B`. -/
theorem c6_child_failure_witness :
    _collect_urls_from_sitemap (c6net {("https://ok/1".data)})
        ⟨("w0".data), idxDoc2 ("wx".data) ("wy".data)⟩ 0 = {("https://ok/1".data)}
    ∧ download_sitemap (fun _ => none) ("20260101".data) emptyDomain ("w0".data) =
        ({ success := false, message := msgDownloadFailed, path := none, newUrls := ∅ },
          emptyDomain) := by
  have h := c6_child_failure {("https://ok/1".data)} (by decide)
  exact ⟨h.1, h.2.2⟩
